import Mathlib

/-!
Shallow embedding of the pyuavcan presentation-layer service client
(`pyuavcan/presentation/_port/_client.py`) and of the iteration helper
`pyuavcan/util/_mark_last.py`.

The Python code runs on a single-threaded cooperative (asyncio) scheduler.
State mutations between two awaits are atomic; the embedding therefore
models each straight-line section of the code as a pure state transition,
and models the behaviour of the environment at each await point (the
outcome of the transport send, the outcome of the response wait, and the
activity of the Receiver task and of other concurrent calls on the pending
table during those awaits) by explicit oracle parameters.
-/

namespace PyUavcan

/-- Exception kinds raised by the code under study.  `portClosed` stands for
`PortClosedError`, `transferIdExhausted` for
`RequestTransferIDVariabilityExhaustedError`, `valueError` for Python
`ValueError`, `assertionError` for a failed `assert` statement,
`invalidState` for `asyncio.InvalidStateError`, `cancelled` for
`asyncio.CancelledError`, and `other n` for any further exception coming
out of the transport or codec. -/
inductive Err where
  | portClosed
  | transferIdExhausted
  | valueError
  | typeError
  | assertionError
  | invalidState
  | cancelled
  | other (n : Nat)
deriving DecidableEq, Repr

/-- An inbound transfer as delivered by `InputSession.receive_until`:
the fields of `pyuavcan.transport.TransferFrom` that the client reads are
the transfer-ID and the fragmented payload (payload fragments are
abstracted to a list of naturals). -/
structure TransferFrom where
  transferId : Nat
  fragmentedPayload : List Nat
deriving DecidableEq, Repr

/-- The state of one `asyncio.Future` stored in
`ClientImpl._response_futures_by_transfer_id`: still pending, completed by
`set_result` with a deserialised response (abstracted to a `Nat`) and its
transfer, or failed by `set_exception`. -/
inductive SlotState where
  | pending
  | result (response : Nat) (transfer : TransferFrom)
  | failure (e : Err)
deriving DecidableEq, Repr

/-- The pending table `_response_futures_by_transfer_id`: a Python dict
from transfer-ID to future, embedded as an association list with unique
keys. -/
abbrev PendingTable := List (Nat × SlotState)

/-- Dict lookup `p[tid]` / `tid in p` on the pending table. -/
def lookupTid : PendingTable → Nat → Option SlotState
  | [], _ => none
  | (k, v) :: rest, tid => if k = tid then some v else lookupTid rest tid

/-- Dict deletion tolerating a missing key; this is exactly
`ClientImpl._forget_future` (`del` wrapped in `except LookupError: pass`). -/
def removeTid (p : PendingTable) (tid : Nat) : PendingTable :=
  p.filter (fun kv => kv.1 ≠ tid)

/-- Dict insertion of a key known to be absent (the code checks
`transfer_id in self._response_futures_by_transfer_id` first). -/
def insertTid (p : PendingTable) (tid : Nat) (s : SlotState) : PendingTable :=
  (tid, s) :: p

/-- The mutable state of a `ClientImpl` instance, as far as the client code
reads or writes it: the closed flag, the shared outgoing transfer-ID
counter value, the pending table, the four statistics counters, the proxy
reference count, and bookkeeping for the finalizer and the receiver-task
cancellation request. -/
structure ImplState where
  closed : Bool
  counter : Nat
  pending : PendingTable
  sentRequestCount : Nat
  unsentRequestCount : Nat
  deserializationFailureCount : Nat
  unexpectedResponseCount : Nat
  proxyCount : Int
  finalizerCalls : Nat
  taskCancelRequested : Bool
deriving DecidableEq, Repr

/-- Outcome of the awaited `_do_send_until` step: the transport either
returns a boolean (`true` = accepted before the deadline) or the step
raises (covering the `TypeError` of the request-type check, serialization
errors and transport errors alike). -/
inductive SendOutcome where
  | ok (accepted : Bool)
  | raise (e : Err)
deriving DecidableEq, Repr

/-- Outcome of the awaited `asyncio.wait_for(future, timeout)` step: the
future completes with a response and its transfer, the wait times out
(`asyncio.TimeoutError`, turned into a `None` return), or the wait raises
(task cancellation, or an exception placed into the future by the receiver
termination path). -/
inductive WaitOutcome where
  | completed (response : Nat) (transfer : TransferFrom)
  | timeout
  | raise (e : Err)
deriving DecidableEq, Repr

/-- Per-invocation inputs of `ClientImpl.call`: the value returned by this
call's fresh evaluation of `_transfer_id_modulo_factory()`, the outcome of
the send await, the outcome of the response wait, and the net effect on
the pending table of everything the Receiver task (during the send await)
and the Receiver task plus other concurrent calls (during the response
wait) did while this call was suspended.  The interference functions
over-approximate the environment: any function is allowed. -/
structure CallEnv where
  modulus : Nat
  sendOutcome : SendOutcome
  sendInterference : PendingTable → PendingTable
  waitOutcome : WaitOutcome
  waitInterference : PendingTable → PendingTable

/-- What a finished `ClientImpl.call` invocation did: its return value or
raised exception. -/
inductive CallOutcome where
  | returned (r : Option (Nat × TransferFrom))
  | raised (e : Err)
deriving DecidableEq, Repr

/-- Result of one `ClientImpl.call` invocation: the outcome, the impl
state at the instant the invocation returns or raises, and whether the
send step (`_do_send_until`) was ever invoked. -/
structure CallResult where
  outcome : CallOutcome
  state : ImplState
  sendAttempted : Bool

/-- The transfer-ID a `call` invocation allocates:
`transfer_id_counter.get_then_increment() % transfer_id_modulo_factory()`
(the counter value before the increment, folded by the per-call modulus). -/
def callTransferId (s : ImplState) (env : CallEnv) : Nat :=
  s.counter % env.modulus

/-- Embedding of `ClientImpl.call` from the instant the per-impl mutex has
been acquired.  Step by step, following the source: raise `PortClosed` if
closed; allocate the transfer-ID (incrementing the shared counter);
raise `RequestTransferIDVariabilityExhausted` if the transfer-ID is already
a key of the pending table; insert a fresh pending future; await the send
(under the mutex, with receiver interference), removing the future and
re-raising if the send raises; then with the mutex released, on an
accepted send increment `sent_request_count` and await the future
(with environment interference), and on a refused send increment
`unsent_request_count` and return `None`; in every case the `finally`
block removes the transfer-ID from the pending table last. -/
def ClientImpl.call (s : ImplState) (env : CallEnv) : CallResult :=
  if s.closed then
    { outcome := .raised .portClosed, state := s, sendAttempted := false }
  else
    let transferId := callTransferId s env
    let s1 : ImplState := { s with counter := s.counter + 1 }
    if (lookupTid s1.pending transferId).isSome then
      { outcome := .raised .transferIdExhausted, state := s1, sendAttempted := false }
    else
      let s2 : ImplState := { s1 with pending := insertTid s1.pending transferId .pending }
      let s3 : ImplState := { s2 with pending := env.sendInterference s2.pending }
      match env.sendOutcome with
      | .raise e =>
          { outcome := .raised e,
            state := { s3 with pending := removeTid s3.pending transferId },
            sendAttempted := true }
      | .ok accepted =>
          if accepted then
            let s4 : ImplState := { s3 with sentRequestCount := s3.sentRequestCount + 1 }
            let s5 : ImplState := { s4 with pending := env.waitInterference s4.pending }
            match env.waitOutcome with
            | .completed response transfer =>
                { outcome := .returned (some (response, transfer)),
                  state := { s5 with pending := removeTid s5.pending transferId },
                  sendAttempted := true }
            | .timeout =>
                { outcome := .returned none,
                  state := { s5 with pending := removeTid s5.pending transferId },
                  sendAttempted := true }
            | .raise e =>
                { outcome := .raised e,
                  state := { s5 with pending := removeTid s5.pending transferId },
                  sendAttempted := true }
          else
            let s4 : ImplState := { s3 with unsentRequestCount := s3.unsentRequestCount + 1 }
            { outcome := .returned none,
              state := { s4 with pending := removeTid s4.pending transferId },
              sendAttempted := true }

/-- Why the Receiver loop of `ClientImpl._task_function` stopped running:
task cancellation (`asyncio.CancelledError` caught), a fatal exception
from the transport or codec (caught and captured), or the closed flag
being observed at the top of the loop. -/
inductive TermCause where
  | cancelled
  | fatalError (e : Err)
  | closedFlag
deriving DecidableEq, Repr

/-- `Future.set_exception` guarded by `except InvalidStateError: pass`:
a still-pending future is failed, an already-completed future is left
unchanged. -/
def setExceptionTolerant (slot : SlotState) (e : Err) : SlotState :=
  match slot with
  | .pending => .failure e
  | done => done

/-- The exception used to complete the remaining pending futures in the
termination path of `_task_function`: the loop's captured exception is
overwritten by a finalizer failure if any, and if no exception was
captured at all a fresh `PortClosedError` is used. -/
def taskTerminationException (cause : TermCause) (finalizerError : Option Err) : Err :=
  match finalizerError with
  | some e => e
  | none =>
      match cause with
      | .fatalError e => e
      | _ => .portClosed

/-- Embedding of the termination path of `ClientImpl._task_function`
(everything after the receive loop): set the closed flag, invoke the
finalizer with the two transport sessions (counted here; a finalizer
exception is captured, logged and does not stop the path), then complete
every future still stored in the pending table with the captured
exception, tolerating already-completed futures.  Note the futures are
completed in place: the termination path does not remove them from the
table; each is removed later by `_forget_future` in the `finally` block of
the `call` invocation that owns it. -/
def ClientImpl.taskTermination (s : ImplState) (cause : TermCause)
    (finalizerError : Option Err) : ImplState :=
  let e := taskTerminationException cause finalizerError
  { s with closed := true,
           finalizerCalls := s.finalizerCalls + 1,
           pending := s.pending.map (fun kv => (kv.1, setExceptionTolerant kv.2 e)) }

/-- What one iteration of the Receiver loop did with an inbound transfer. -/
inductive ReceiverAction where
  | deserFailed
  | unexpected
  | delivered (tid : Nat) (response : Nat) (transfer : TransferFrom)
  | raisedInvalidState
deriving DecidableEq, Repr

/-- Embedding of one iteration of the Receiver loop in
`ClientImpl._task_function` for an inbound transfer (the
`transfer is None` case merely continues and is omitted): deserialise the
fragmented payload into the Response type (the DSDL codec is external and
passed as an oracle); on failure increment `deserialization_failure_count`
and continue; otherwise pop the future stored under the transfer's
transfer-ID, incrementing `unexpected_response_count` if the key is
absent, and complete the popped future with the response and the transfer.
`set_result` on an already-completed future would raise
`asyncio.InvalidStateError` (uncaught, hence fatal); that branch is
recorded as `raisedInvalidState` and is unreachable in normal operation
because only pending futures are ever stored. -/
def ClientImpl.receiverIteration (s : ImplState)
    (deserializeResponse : List Nat → Option Nat)
    (transfer : TransferFrom) : ImplState × ReceiverAction :=
  match deserializeResponse transfer.fragmentedPayload with
  | none =>
      ({ s with deserializationFailureCount := s.deserializationFailureCount + 1 },
       .deserFailed)
  | some response =>
      match lookupTid s.pending transfer.transferId with
      | none =>
          ({ s with unexpectedResponseCount := s.unexpectedResponseCount + 1 },
           .unexpected)
      | some slot =>
          match slot with
          | .pending =>
              ({ s with pending := removeTid s.pending transfer.transferId },
               .delivered transfer.transferId response transfer)
          | _ =>
              ({ s with pending := removeTid s.pending transfer.transferId },
               .raisedInvalidState)

/-- Embedding of `ClientImpl.remove_proxy`: decrement the proxy count
unconditionally, then `assert self._proxy_count >= 0` (a violated assert
raises `AssertionError` under default Python semantics); if the count
reached zero and the impl is not yet closed, set the closed flag and
request cancellation of the Receiver task (`task.cancel` is wrapped in a
broad `except`, so it never raises). -/
def ImplState.removeProxy (s : ImplState) : Except Err ImplState :=
  let s1 : ImplState := { s with proxyCount := s.proxyCount - 1 }
  if s1.proxyCount ≥ 0 then
    if s1.proxyCount ≤ 0 ∧ s1.closed = false then
      .ok { s1 with closed := true, taskCancelRequested := true }
    else
      .ok s1
  else
    .error .assertionError

/-- Embedding of `ClientImpl.register_proxy`: raise `PortClosed` when
closed, else increment the proxy count (the entry assert
`self._proxy_count >= 0` is checked first). -/
def ImplState.registerProxy (s : ImplState) : Except Err ImplState :=
  if s.closed then .error .portClosed
  else if s.proxyCount ≥ 0 then .ok { s with proxyCount := s.proxyCount + 1 }
  else .error .assertionError

/-- A Python float as far as the client code compares it: a finite value
(modelled as a rational), one of the two infinities, or NaN.  Only
comparisons are performed on timeouts, so this captures the IEEE-754
behaviour the code relies on exactly. -/
inductive PyFloat where
  | finite (q : ℚ)
  | inf
  | negInf
  | nan
deriving DecidableEq, Repr

/-- IEEE-754 `<` on the embedded floats: NaN is incomparable with
everything, `-inf < q < +inf` for every finite `q`, and finite values
compare as rationals. -/
def PyFloat.lt : PyFloat → PyFloat → Bool
  | .finite a, .finite b => a < b
  | .finite _, .inf => true
  | .negInf, .finite _ => true
  | .negInf, .inf => true
  | _, _ => false

/-- The statistics record assembled by `Client.sample_statistics` from the
impl's counters (the two forwarded transport-session statistics are
external and omitted). -/
structure ClientStatistics where
  sentRequests : Nat
  deserializationFailures : Nat
  unexpectedResponses : Nat
deriving DecidableEq, Repr

/-- The state of one user-facing `Client` proxy: the optional reference to
the shared impl (`_maybe_impl`, cleared by `close`), and the per-proxy
response timeout (`_response_timeout`).  The per-proxy priority and the
cached dtype/session/counter references play no role in the claims and
are omitted. -/
structure ClientState where
  maybeImpl : Option ImplState
  responseTimeout : PyFloat
deriving DecidableEq, Repr

/-- Embedding of `Client.call`: raise `PortClosed` when the impl reference
has been cleared by `close`, else forward to `ClientImpl.call` (passing
the proxy's own priority and timeout, which are absorbed by the oracle
environment). -/
def Client.callProxy (c : ClientState) (env : CallEnv) : CallOutcome × Option ImplState :=
  match c.maybeImpl with
  | none => (.raised .portClosed, none)
  | some impl =>
      let r := ClientImpl.call impl env
      (r.outcome, some r.state)

/-- Embedding of `Client.sample_statistics`: raise `PortClosed` when the
impl reference has been cleared, else read the impl's counters. -/
def Client.sampleStatistics (c : ClientState) : Except Err ClientStatistics :=
  match c.maybeImpl with
  | none => .error .portClosed
  | some impl =>
      .ok { sentRequests := impl.sentRequestCount,
            deserializationFailures := impl.deserializationFailureCount,
            unexpectedResponses := impl.unexpectedResponseCount }

/-- Embedding of the `Client.response_timeout` getter. -/
def Client.responseTimeoutGet (c : ClientState) : PyFloat :=
  c.responseTimeout

/-- Embedding of the `Client.response_timeout` setter: accept the value
iff `0 < value < float(+inf)` (a Python chained comparison), storing it;
otherwise raise `ValueError` and leave the stored timeout unchanged. -/
def Client.setResponseTimeout (c : ClientState) (value : PyFloat) :
    Except Err ClientState :=
  if (PyFloat.lt (.finite 0) value && PyFloat.lt value .inf) = true then
    .ok { c with responseTimeout := value }
  else
    .error .valueError

/-- Embedding of `Client.close`: atomically swap the impl reference out;
if it was present, invoke `ClientImpl.remove_proxy` on it (reported here
as the boolean second component). -/
def Client.close (c : ClientState) : ClientState × Bool :=
  match c.maybeImpl with
  | none => (c, false)
  | some _ => ({ c with maybeImpl := none }, true)

/-- Embedding of `Client.__del__`: invoke `remove_proxy` iff the impl
reference is still present.  Unlike `close` it does not clear the
reference, but the garbage collector runs it at most once and only after
every other operation on the proxy. -/
def Client.del (c : ClientState) : ClientState × Bool :=
  match c.maybeImpl with
  | none => (c, false)
  | some _ => (c, true)

/-- A lifetime event of a `Client` proxy relevant to the impl reference
count: an explicit `close()` call or the interpreter's `__del__` hook. -/
inductive ProxyOp where
  | close
  | del
deriving DecidableEq, Repr

/-- Run a sequence of lifetime events over a proxy, counting how many of
them actually invoked `ClientImpl.remove_proxy`. -/
def Client.runOps (c : ClientState) : List ProxyOp → ClientState × Nat
  | [] => (c, 0)
  | op :: rest =>
      let step := match op with
                  | ProxyOp.close => Client.close c
                  | ProxyOp.del => Client.del c
      let tail := Client.runOps step.1 rest
      (tail.1, (if step.2 then 1 else 0) + tail.2)

/-- Did the send step of this invocation of `call` complete without an
exception (reaching the statistics update of step 5)?  True iff the impl
was open, the allocated transfer-ID was fresh, and the transport returned
a boolean. -/
def reachedSendOk (s : ImplState) (env : CallEnv) : Bool :=
  !s.closed
    && (lookupTid s.pending (callTransferId s env)).isNone
    && (match env.sendOutcome with | .ok _ => true | .raise _ => false)

/-- Run a sequence of `call` invocations (each atomic with respect to the
counters, which only `call` invocations mutate), counting those whose send
step completed without an exception. -/
def ClientImpl.runCalls (s : ImplState) : List CallEnv → ImplState × Nat
  | [] => (s, 0)
  | env :: rest =>
      let r := ClientImpl.call s env
      let tail := ClientImpl.runCalls r.state rest
      (tail.1, (if reachedSendOk s env then 1 else 0) + tail.2)

/-- A freshly constructed open impl with an empty pending table, used as a
concrete evaluation point. -/
def sampleOpenImpl : ImplState :=
  { closed := false, counter := 5, pending := [],
    sentRequestCount := 0, unsentRequestCount := 0,
    deserializationFailureCount := 0, unexpectedResponseCount := 0,
    proxyCount := 1, finalizerCalls := 0, taskCancelRequested := false }

/-- An open impl with one outstanding request pending under transfer-ID 5
(which is also the transfer-ID the next `call` allocates, since the
counter stands at 5 and the sample modulus is 32). -/
def samplePendingImpl : ImplState :=
  { sampleOpenImpl with pending := [(5, SlotState.pending)] }

/-- An impl whose proxy count has already dropped to zero. -/
def sampleZeroProxyImpl : ImplState :=
  { sampleOpenImpl with proxyCount := 0, closed := true }

/-- A call environment in which the transport accepts the request and the
response wait then times out; the environment leaves the pending table
alone during both awaits. -/
def sampleEnvTimeout : CallEnv :=
  { modulus := 32, sendOutcome := .ok true,
    sendInterference := id, waitOutcome := .timeout, waitInterference := id }

/-- A call environment in which the transport accepts the request and the
invoking task is then cancelled while waiting for the response. -/
def sampleEnvCancelled : CallEnv :=
  { sampleEnvTimeout with waitOutcome := .raise .cancelled }

/-- A live client proxy bound to the sample impl. -/
def sampleClient : ClientState :=
  { maybeImpl := some sampleOpenImpl, responseTimeout := .finite 1 }

/-- Claim C3 read literally: for a `call` invocation on an open impl with
a fresh transfer-ID, an accepted send increments `sent_request_count` and
the call returns (some value or `None`), and a refused send increments
`unsent_request_count` and the call returns `None`. -/
def claimC3Statement : Prop :=
  ∀ (s : ImplState) (env : CallEnv),
    s.closed = false →
    lookupTid s.pending (callTransferId s env) = none →
    (env.sendOutcome = .ok true →
        (ClientImpl.call s env).state.sentRequestCount = s.sentRequestCount + 1 ∧
        ∃ r, (ClientImpl.call s env).outcome = .returned r) ∧
    (env.sendOutcome = .ok false →
        (ClientImpl.call s env).state.unsentRequestCount = s.unsentRequestCount + 1 ∧
        (ClientImpl.call s env).outcome = .returned none)

/-- Claim C4 read literally: the termination path of the Receiver task
sets the closed flag, invokes the finalizer exactly once, completes every
pending slot with the captured exception, and leaves the pending table
empty. -/
def claimC4Statement : Prop :=
  ∀ (s : ImplState) (cause : TermCause) (fe : Option Err),
    (ClientImpl.taskTermination s cause fe).closed = true ∧
    (ClientImpl.taskTermination s cause fe).finalizerCalls = s.finalizerCalls + 1 ∧
    (∀ tid, lookupTid s.pending tid = some .pending →
        lookupTid (ClientImpl.taskTermination s cause fe).pending tid
          = some (.failure (taskTerminationException cause fe))) ∧
    (ClientImpl.taskTermination s cause fe).pending = []

/-- Claim C5 read literally: once a proxy is closed, its impl reference is
cleared, `call` raises `PortClosed`, and sampling statistics still
succeeds. -/
def claimC5Statement : Prop :=
  ∀ c : ClientState,
    (Client.close c).1.maybeImpl = none ∧
    (∀ env, (Client.callProxy (Client.close c).1 env).1 = .raised .portClosed) ∧
    (∃ stats, Client.sampleStatistics (Client.close c).1 = .ok stats)

/-- Claim C6 read literally: `remove_proxy` never raises, whatever the
state of the impl, and the resulting proxy count is never negative. -/
def claimC6Statement : Prop :=
  ∀ s : ImplState,
    ∃ s', ImplState.removeProxy s = .ok s' ∧ 0 ≤ s'.proxyCount

end PyUavcan

namespace PyUavcanUtil

/-- Inner loop of `mark_last`: `last` holds the most recently drawn item;
every further item emits `(False, last)` and the loop ends by emitting
`(True, last)`. -/
def markLastLoop {α : Type} : α → List α → List (Bool × α)
  | last, [] => [(true, last)]
  | last, v :: rest => (false, last) :: markLastLoop v rest

/-- Embedding of `pyuavcan.util.mark_last`: on an empty iterable the
`StopIteration` of the first `next` yields nothing; otherwise the first
item seeds the loop. -/
def mark_last {α : Type} : List α → List (Bool × α)
  | [] => []
  | x :: xs => markLastLoop x xs

end PyUavcanUtil

namespace PyUavcan

/-- Removing a key via `_forget_future` leaves no entry with that key. -/
theorem lookupTid_removeTid_self (p : PendingTable) (tid : Nat) :
    lookupTid (removeTid p tid) tid = none := by
  induction p with
  | nil => rfl
  | cons kv rest ih =>
      by_cases h : kv.1 = tid
      · simpa [removeTid, List.filter, h] using ih
      · simpa [removeTid, List.filter, h, lookupTid] using ih

/-- Lookup commutes with a key-preserving map over the table. -/
theorem lookupTid_map (p : PendingTable) (f : SlotState → SlotState) (tid : Nat) :
    lookupTid (p.map (fun kv => (kv.1, f kv.2))) tid = (lookupTid p tid).map f := by
  induction p with
  | nil => rfl
  | cons kv rest ih =>
      by_cases h : kv.1 = tid
      · simp [lookupTid, h]
      · simpa [lookupTid, h] using ih

/-- Folding `_forget_future` over a list of keys covering every key of the
table empties it. -/
theorem foldl_removeTid_of_keys_subset (l : List Nat) :
    ∀ p : PendingTable, (∀ kv ∈ p, kv.1 ∈ l) →
      List.foldl removeTid p l = [] := by
  induction l with
  | nil =>
      intro p hp
      cases p with
      | nil => rfl
      | cons kv rest => exact absurd (hp kv (List.mem_cons_self kv rest)) (by simp)
  | cons t l ih =>
      intro p hp
      have step : List.foldl removeTid p (t :: l) = List.foldl removeTid (removeTid p t) l := rfl
      rw [step]
      apply ih
      intro kv hkv
      have hmem : kv ∈ p ∧ kv.1 ≠ t := by
        simpa [removeTid, List.mem_filter] using hkv
      have := hp kv hmem.1
      rcases List.mem_cons.mp this with h | h
      · exact absurd h hmem.2
      · exact h

/-- Each `call` invocation changes `sent_request_count + unsent_request_count`
by one exactly when its send step completed without an exception, whatever
the environment did meanwhile. -/
theorem call_sent_unsent_delta (s : ImplState) (env : CallEnv) :
    (ClientImpl.call s env).state.sentRequestCount
        + (ClientImpl.call s env).state.unsentRequestCount
      = s.sentRequestCount + s.unsentRequestCount
        + (if reachedSendOk s env then 1 else 0) := by
  by_cases hc : s.closed = true
  · simp [ClientImpl.call, reachedSendOk, hc]
  · replace hc : s.closed = false := by simpa using hc
    by_cases hl : (lookupTid s.pending (callTransferId s env)).isSome = true
    · rcases Option.isSome_iff_exists.mp hl with ⟨slot, hslot⟩
      simp [ClientImpl.call, reachedSendOk, hc, hslot]
    · replace hl : lookupTid s.pending (callTransferId s env) = none := by
        simpa [Option.isSome_iff_exists, Option.eq_none_iff_forall_not_mem] using hl
      cases hso : env.sendOutcome with
      | raise e =>
          simp [ClientImpl.call, reachedSendOk, hc, hl, hso]
      | ok accepted =>
          cases accepted with
          | true =>
              cases hwo : env.waitOutcome <;>
                simp [ClientImpl.call, reachedSendOk, hc, hl, hso, hwo] <;> omega
          | false =>
              simp [ClientImpl.call, reachedSendOk, hc, hl, hso]
              omega

/-- Over any sequence of `call` invocations, the two send counters advance
together with the number of invocations whose send step completed. -/
theorem runCalls_accounting (envs : List CallEnv) :
    ∀ s : ImplState,
      (ClientImpl.runCalls s envs).1.sentRequestCount
          + (ClientImpl.runCalls s envs).1.unsentRequestCount
        = s.sentRequestCount + s.unsentRequestCount + (ClientImpl.runCalls s envs).2 := by
  induction envs with
  | nil => intro s; simp [ClientImpl.runCalls]
  | cons env rest ih =>
      intro s
      have hdelta := call_sent_unsent_delta s env
      have htail := ih (ClientImpl.call s env).state
      by_cases hr : reachedSendOk s env = true <;>
        simp [ClientImpl.runCalls, hr] at hdelta htail ⊢ <;> omega

/-- C1: every invocation of `ClientImpl.call` that inserts a completion
slot for its transfer-ID (i.e. runs on a non-closed impl and allocates a
transfer-ID not already pending) leaves that transfer-ID absent from the
pending table at the moment it returns or raises, on every exit path —
normal return of a response, timeout return of `None`, unsent-request
return of `None`, and every raised exception, including exceptions raised
during the send — and under arbitrary interference from the Receiver task
and other calls during its awaits. -/
theorem call_removes_inserted_tid (s : ImplState) (env : CallEnv)
    (hopen : s.closed = false)
    (hfresh : lookupTid s.pending (callTransferId s env) = none) :
    lookupTid (ClientImpl.call s env).state.pending (callTransferId s env) = none := by
  cases hso : env.sendOutcome with
  | raise e =>
      simp [ClientImpl.call, hopen, hfresh, hso, lookupTid_removeTid_self]
  | ok accepted =>
      cases accepted <;> cases hwo : env.waitOutcome <;>
        simp [ClientImpl.call, hopen, hfresh, hso, hwo, lookupTid_removeTid_self]

/-- Concrete instance of `call_removes_inserted_tid`: an accepted send
followed by a response timeout on the sample impl. -/
theorem call_removes_inserted_tid_witness :
    sampleOpenImpl.closed = false ∧
    lookupTid sampleOpenImpl.pending (callTransferId sampleOpenImpl sampleEnvTimeout) = none ∧
    lookupTid (ClientImpl.call sampleOpenImpl sampleEnvTimeout).state.pending
        (callTransferId sampleOpenImpl sampleEnvTimeout) = none :=
  ⟨rfl, rfl, call_removes_inserted_tid sampleOpenImpl sampleEnvTimeout rfl rfl⟩

/-- C2: on a non-closed impl, `call` allocates the transfer-ID as the
pre-increment counter value folded by the per-call modulus (the counter is
incremented as a side effect); when that transfer-ID is already a key of
the pending table, the call raises
`RequestTransferIDVariabilityExhausted`, never invokes the send step,
inserts no slot, and leaves the pending table and all four statistics
counters exactly as they were. -/
theorem call_tid_collision (s : ImplState) (env : CallEnv)
    (hopen : s.closed = false)
    (hcoll : (lookupTid s.pending (callTransferId s env)).isSome = true) :
    callTransferId s env = s.counter % env.modulus ∧
    (ClientImpl.call s env).outcome = .raised .transferIdExhausted ∧
    (ClientImpl.call s env).sendAttempted = false ∧
    (ClientImpl.call s env).state.counter = s.counter + 1 ∧
    (ClientImpl.call s env).state.pending = s.pending ∧
    (ClientImpl.call s env).state.sentRequestCount = s.sentRequestCount ∧
    (ClientImpl.call s env).state.unsentRequestCount = s.unsentRequestCount ∧
    (ClientImpl.call s env).state.deserializationFailureCount
        = s.deserializationFailureCount ∧
    (ClientImpl.call s env).state.unexpectedResponseCount = s.unexpectedResponseCount := by
  rcases Option.isSome_iff_exists.mp hcoll with ⟨slot, hslot⟩
  refine ⟨rfl, ?_, ?_, ?_, ?_, ?_, ?_, ?_, ?_⟩ <;>
    simp [ClientImpl.call, hopen, hslot]

/-- Concrete instance of `call_tid_collision`: the sample impl already has
transfer-ID 5 pending and its counter stands at 5 with modulus 32. -/
theorem call_tid_collision_witness :
    samplePendingImpl.closed = false ∧
    (lookupTid samplePendingImpl.pending
        (callTransferId samplePendingImpl sampleEnvTimeout)).isSome = true ∧
    (ClientImpl.call samplePendingImpl sampleEnvTimeout).outcome
        = .raised .transferIdExhausted ∧
    (ClientImpl.call samplePendingImpl sampleEnvTimeout).sendAttempted = false ∧
    (ClientImpl.call samplePendingImpl sampleEnvTimeout).state.pending
        = samplePendingImpl.pending :=
  have h := call_tid_collision samplePendingImpl sampleEnvTimeout rfl rfl
  ⟨rfl, rfl, h.2.1, h.2.2.1, h.2.2.2.2.1⟩

/-- C3 counterexample: claim C3 as stated is false.  With the send
accepted and the waiting task then cancelled (a legitimate asyncio
outcome, and the very situation §5 of the specification describes), the
call raises instead of returning `Some` or `None`. -/
theorem call_result_accounting_cex : ¬ claimC3Statement := by
  intro h
  have h1 := (h sampleOpenImpl sampleEnvCancelled rfl rfl).1 rfl
  rcases h1.2 with ⟨r, hr⟩
  exact CallOutcome.noConfusion hr

/-- C3 amended: for a `call` on a non-closed impl with a fresh
transfer-ID, if the send step completed without an exception then an
accepted send increments `sent_request_count` by exactly one (and leaves
`unsent_request_count` alone) and the call returns the slot's response on
completion, returns `None` on timeout, or propagates the exception the
wait raised (cancellation, or a failure placed into the slot); a refused
send increments `unsent_request_count` by exactly one and returns `None`.
Consequently, over any sequence of invocations,
`sent_requests + unsent_requests` grows by exactly the number of
invocations whose send step completed without an exception. -/
theorem call_result_accounting (s : ImplState) (env : CallEnv) (envs : List CallEnv)
    (hopen : s.closed = false)
    (hfresh : lookupTid s.pending (callTransferId s env) = none) :
    (env.sendOutcome = .ok true →
        (ClientImpl.call s env).state.sentRequestCount = s.sentRequestCount + 1 ∧
        (ClientImpl.call s env).state.unsentRequestCount = s.unsentRequestCount ∧
        (∀ resp t, env.waitOutcome = .completed resp t →
            (ClientImpl.call s env).outcome = .returned (some (resp, t))) ∧
        (env.waitOutcome = .timeout →
            (ClientImpl.call s env).outcome = .returned none) ∧
        (∀ e, env.waitOutcome = .raise e →
            (ClientImpl.call s env).outcome = .raised e)) ∧
    (env.sendOutcome = .ok false →
        (ClientImpl.call s env).state.unsentRequestCount = s.unsentRequestCount + 1 ∧
        (ClientImpl.call s env).state.sentRequestCount = s.sentRequestCount ∧
        (ClientImpl.call s env).outcome = .returned none) ∧
    ((ClientImpl.runCalls s envs).1.sentRequestCount
          + (ClientImpl.runCalls s envs).1.unsentRequestCount
        = s.sentRequestCount + s.unsentRequestCount + (ClientImpl.runCalls s envs).2) := by
  refine ⟨?_, ?_, runCalls_accounting envs s⟩
  · intro hso
    refine ⟨?_, ?_, ?_, ?_, ?_⟩
    · simp [ClientImpl.call, hopen, hfresh, hso]
      cases hwo : env.waitOutcome <;> simp
    · simp [ClientImpl.call, hopen, hfresh, hso]
      cases hwo : env.waitOutcome <;> simp
    · intro resp t hwo; simp [ClientImpl.call, hopen, hfresh, hso, hwo]
    · intro hwo; simp [ClientImpl.call, hopen, hfresh, hso, hwo]
    · intro e hwo; simp [ClientImpl.call, hopen, hfresh, hso, hwo]
  · intro hso
    refine ⟨?_, ?_, ?_⟩ <;> simp [ClientImpl.call, hopen, hfresh, hso]

/-- Concrete instance of `call_result_accounting`: an accepted send whose
response wait times out, on the sample impl. -/
theorem call_result_accounting_witness :
    (ClientImpl.call sampleOpenImpl sampleEnvTimeout).state.sentRequestCount
        = sampleOpenImpl.sentRequestCount + 1 ∧
    (ClientImpl.call sampleOpenImpl sampleEnvTimeout).outcome = .returned none ∧
    (ClientImpl.runCalls sampleOpenImpl [sampleEnvTimeout]).1.sentRequestCount
          + (ClientImpl.runCalls sampleOpenImpl [sampleEnvTimeout]).1.unsentRequestCount
        = sampleOpenImpl.sentRequestCount + sampleOpenImpl.unsentRequestCount
          + (ClientImpl.runCalls sampleOpenImpl [sampleEnvTimeout]).2 :=
  have h := call_result_accounting sampleOpenImpl sampleEnvTimeout [sampleEnvTimeout] rfl rfl
  ⟨(h.1 rfl).1, (h.1 rfl).2.2.2.1 rfl, h.2.2⟩

/-- C4 counterexample: claim C4 as stated is false.  Terminating the
Receiver task of an impl that still has a pending slot leaves that
(now failed) slot in the pending table: the termination path completes the
futures in place and it is the owning `call` invocations that later remove
them. -/
theorem taskTermination_cex : ¬ claimC4Statement := by
  intro h
  have h4 := (h samplePendingImpl .cancelled none).2.2.2
  exact List.noConfusion h4

/-- C4 amended: when the Receiver task of a `ClientImpl` terminates, the
closed flag is set and the finalizer is invoked exactly once with the two
transport sessions; every slot still pending is completed with the
captured exception — the finalizer's own failure taking precedence, and a
generic `PortClosed` standing in when the termination was clean — while an
already-completed slot is tolerated unchanged; the completed futures stay
in the pending table until each owning call's `finally` block removes its
own transfer-ID, after which the table is empty (removing every key of the
post-termination table empties it). -/
theorem taskTermination_completes_pending (s : ImplState) (cause : TermCause)
    (fe : Option Err) :
    (ClientImpl.taskTermination s cause fe).closed = true ∧
    (ClientImpl.taskTermination s cause fe).finalizerCalls = s.finalizerCalls + 1 ∧
    (∀ tid, lookupTid s.pending tid = some .pending →
        lookupTid (ClientImpl.taskTermination s cause fe).pending tid
          = some (.failure (taskTerminationException cause fe))) ∧
    (∀ tid slot, lookupTid s.pending tid = some slot → slot ≠ .pending →
        lookupTid (ClientImpl.taskTermination s cause fe).pending tid = some slot) ∧
    ((cause = .cancelled ∨ cause = .closedFlag) → fe = none →
        taskTerminationException cause fe = .portClosed) ∧
    List.foldl removeTid (ClientImpl.taskTermination s cause fe).pending
        ((ClientImpl.taskTermination s cause fe).pending.map Prod.fst) = [] := by
  refine ⟨rfl, rfl, ?_, ?_, ?_, ?_⟩
  · intro tid hslot
    have hmap := lookupTid_map s.pending
      (fun sl => setExceptionTolerant sl (taskTerminationException cause fe)) tid
    simp [ClientImpl.taskTermination, hmap, hslot]
    rfl
  · intro tid slot hslot hne
    have := lookupTid_map s.pending
      (fun sl => setExceptionTolerant sl (taskTerminationException cause fe)) tid
    simp [ClientImpl.taskTermination, this, hslot]
    cases slot with
    | pending => exact absurd rfl hne
    | result r t => rfl
    | failure e => rfl
  · rintro (hc | hc) hfe <;> subst hc <;> subst hfe <;> rfl
  · apply foldl_removeTid_of_keys_subset
    intro kv hkv
    exact List.mem_map.mpr ⟨kv, hkv, rfl⟩

/-- Concrete instance of `taskTermination_completes_pending`: a fatal
transport error terminates the Receiver of the sample impl while
transfer-ID 5 is pending. -/
theorem taskTermination_completes_pending_witness :
    (ClientImpl.taskTermination samplePendingImpl (.fatalError (.other 7)) none).closed
        = true ∧
    (ClientImpl.taskTermination samplePendingImpl (.fatalError (.other 7)) none).finalizerCalls
        = samplePendingImpl.finalizerCalls + 1 ∧
    lookupTid
        (ClientImpl.taskTermination samplePendingImpl (.fatalError (.other 7)) none).pending 5
      = some (.failure (taskTerminationException (.fatalError (.other 7)) none)) ∧
    List.foldl removeTid
        (ClientImpl.taskTermination samplePendingImpl (.fatalError (.other 7)) none).pending
        ((ClientImpl.taskTermination samplePendingImpl
            (.fatalError (.other 7)) none).pending.map Prod.fst) = [] :=
  have h := taskTermination_completes_pending samplePendingImpl (.fatalError (.other 7)) none
  ⟨h.1, h.2.1, h.2.2.1 5 rfl, h.2.2.2.2.2⟩

/-- C5 counterexample: claim C5 as stated is false.  `sample_statistics`
checks the impl reference first and raises `PortClosedError` on a closed
proxy, so statistics sampling is not available after close. -/
theorem client_closed_ops_cex : ¬ claimC5Statement := by
  intro h
  rcases (h sampleClient).2.2 with ⟨stats, hstats⟩
  exact Except.noConfusion hstats

/-- C5 amended: closing a `Client` proxy clears its impl reference, after
which both `call` and `sample_statistics` raise `PortClosed`; only the
per-proxy attributes cached at construction (the response timeout,
priority, dtype, transfer-ID counter and transport sessions) remain
usable, the timeout being preserved by the close. -/
theorem client_closed_ops (c : ClientState) (env : CallEnv) :
    (Client.close c).1.maybeImpl = none ∧
    (Client.callProxy (Client.close c).1 env).1 = .raised .portClosed ∧
    Client.sampleStatistics (Client.close c).1 = .error .portClosed ∧
    Client.responseTimeoutGet (Client.close c).1 = c.responseTimeout := by
  cases hm : c.maybeImpl <;>
    simp [Client.close, Client.callProxy, Client.sampleStatistics,
          Client.responseTimeoutGet, hm]

/-- C6 counterexample: claim C6 as stated is false.  Invoking
`remove_proxy` on an impl whose proxy count already reached zero — for
instance a second time after the close — drives the count to `-1` and
fails the `assert self._proxy_count >= 0`, raising `AssertionError`. -/
theorem removeProxy_cex : ¬ claimC6Statement := by
  intro h
  rcases h sampleZeroProxyImpl with ⟨s', hs', _⟩
  exact Except.noConfusion hs'

/-- C6 amended: `remove_proxy` never raises provided at least one
registered proxy remains (`proxy_count ≥ 1` at entry, i.e. it is invoked
at most once per registered proxy — the discipline the proxy class
enforces); it then decrements the count, which stays non-negative, works
unchanged on an already-closed impl, and when the last proxy goes away on
a non-closed impl it sets the closed flag and requests cancellation of the
Receiver task.  It is not idempotent after close: a further invocation at
`proxy_count = 0` fails the internal assertion. -/
theorem removeProxy_no_raise (s : ImplState) (h : 1 ≤ s.proxyCount) :
    ∃ s', ImplState.removeProxy s = .ok s' ∧
      s'.proxyCount = s.proxyCount - 1 ∧
      0 ≤ s'.proxyCount ∧
      (s.closed = true → s'.closed = true) ∧
      ((s.proxyCount = 1 ∧ s.closed = false) →
          (s'.closed = true ∧ s'.taskCancelRequested = true)) := by
  have h0 : (0:Int) ≤ s.proxyCount - 1 := by omega
  by_cases hlast : s.proxyCount - 1 ≤ 0 ∧ s.closed = false
  · have hok : ImplState.removeProxy s =
        .ok { s with proxyCount := s.proxyCount - 1, closed := true, taskCancelRequested := true } := by
      simp [ImplState.removeProxy, h0, hlast.1, hlast.2]
    exact ⟨_, hok, rfl, h0, fun hc => by simp [hc] at hlast, fun _ => ⟨rfl, rfl⟩⟩
  · have hok : ImplState.removeProxy s =
        .ok { s with proxyCount := s.proxyCount - 1 } := by
      simp only [ImplState.removeProxy]
      rw [if_pos (by simpa using h0), if_neg (by simpa using hlast)]
    exact ⟨_, hok, rfl, h0, fun hc => hc,
      fun hcl => absurd ⟨by omega, hcl.2⟩ hlast⟩

/-- Concrete instance of `removeProxy_no_raise`: removing the last proxy
of the open sample impl closes it. -/
theorem removeProxy_no_raise_witness :
    (1 : Int) ≤ sampleOpenImpl.proxyCount ∧
    ∃ s', ImplState.removeProxy sampleOpenImpl = .ok s' ∧
      s'.proxyCount = sampleOpenImpl.proxyCount - 1 ∧
      0 ≤ s'.proxyCount ∧
      (sampleOpenImpl.closed = true → s'.closed = true) ∧
      ((sampleOpenImpl.proxyCount = 1 ∧ sampleOpenImpl.closed = false) →
          (s'.closed = true ∧ s'.taskCancelRequested = true)) :=
  ⟨by decide, removeProxy_no_raise sampleOpenImpl (by decide)⟩

/-- C7: one Receiver iteration on an inbound transfer either increments
`deserialization_failure_count` when the payload does not deserialise as
the Response type (touching nothing else), or increments
`unexpected_response_count` when the transfer-ID matches no pending slot
(touching nothing else), or removes the matching slot from the pending
table and completes it with the deserialised response and the transfer
metadata. -/
theorem receiverIteration_dispatch (s : ImplState)
    (deserializeResponse : List Nat → Option Nat) (t : TransferFrom) :
    (deserializeResponse t.fragmentedPayload = none →
        ClientImpl.receiverIteration s deserializeResponse t
          = ({ s with deserializationFailureCount := s.deserializationFailureCount + 1 },
             .deserFailed)) ∧
    (∀ r, deserializeResponse t.fragmentedPayload = some r →
        lookupTid s.pending t.transferId = none →
        ClientImpl.receiverIteration s deserializeResponse t
          = ({ s with unexpectedResponseCount := s.unexpectedResponseCount + 1 },
             .unexpected)) ∧
    (∀ r, deserializeResponse t.fragmentedPayload = some r →
        lookupTid s.pending t.transferId = some .pending →
        ClientImpl.receiverIteration s deserializeResponse t
          = ({ s with pending := removeTid s.pending t.transferId },
             .delivered t.transferId r t)) := by
  refine ⟨?_, ?_, ?_⟩
  · intro hd
    simp [ClientImpl.receiverIteration, hd]
  · intro r hd hl
    simp [ClientImpl.receiverIteration, hd, hl]
  · intro r hd hl
    simp [ClientImpl.receiverIteration, hd, hl]

/-- Concrete instance of `receiverIteration_dispatch`: a transfer with
transfer-ID 5 and a one-fragment payload is deserialised by taking the
head fragment and completes the pending slot of the sample impl. -/
theorem receiverIteration_dispatch_witness :
    (fun l : List Nat => l.head?) ((⟨5, [9]⟩ : TransferFrom)).fragmentedPayload = some 9 ∧
    lookupTid samplePendingImpl.pending (⟨5, [9]⟩ : TransferFrom).transferId
        = some .pending ∧
    ClientImpl.receiverIteration samplePendingImpl (fun l => l.head?) ⟨5, [9]⟩
      = ({ samplePendingImpl with
             pending := removeTid samplePendingImpl.pending 5 },
         .delivered 5 9 ⟨5, [9]⟩) :=
  ⟨rfl, rfl,
    (receiverIteration_dispatch samplePendingImpl (fun l => l.head?) ⟨5, [9]⟩).2.2 9 rfl rfl⟩

/-- C8: setting a proxy's `response_timeout` to any finite positive value
stores it, and reading it back returns exactly that value; for every
other value — zero, negatives, the infinities and NaN — the setter raises
`ValueError` (the `InvalidArgument` kind of the specification's error
taxonomy) and produces no updated state, so the stored timeout is
unchanged. -/
theorem responseTimeout_roundtrip (c : ClientState) (v : PyFloat) :
    (∀ q : ℚ, v = .finite q → 0 < q →
        Client.setResponseTimeout c v = .ok { c with responseTimeout := v } ∧
        Client.responseTimeoutGet { c with responseTimeout := v } = v) ∧
    ((∀ q : ℚ, v = .finite q → ¬ 0 < q) →
        Client.setResponseTimeout c v = .error .valueError) := by
  constructor
  · rintro q rfl hq
    exact ⟨by simp [Client.setResponseTimeout, PyFloat.lt, hq], rfl⟩
  · intro hv
    cases v with
    | finite q =>
        have := hv q rfl
        simp [Client.setResponseTimeout, PyFloat.lt, this]
    | inf => simp [Client.setResponseTimeout, PyFloat.lt]
    | negInf => simp [Client.setResponseTimeout, PyFloat.lt]
    | nan => simp [Client.setResponseTimeout, PyFloat.lt]

/-- Concrete instance of `responseTimeout_roundtrip`: the value `3/2` is
accepted and read back, while `NaN` is rejected. -/
theorem responseTimeout_roundtrip_witness :
    Client.setResponseTimeout sampleClient (.finite (3/2))
        = .ok { sampleClient with responseTimeout := .finite (3/2) } ∧
    Client.responseTimeoutGet { sampleClient with responseTimeout := .finite (3/2) }
        = .finite (3/2) ∧
    Client.setResponseTimeout sampleClient .nan = .error .valueError :=
  have hset := (responseTimeout_roundtrip sampleClient (.finite (3/2))).1 (3/2) rfl (by norm_num)
  have hnan := (responseTimeout_roundtrip sampleClient .nan).2 (fun q hq => PyFloat.noConfusion hq)
  ⟨hset.1, hset.2, hnan⟩

/-- After `close`, the impl reference is gone and no further lifetime
event invokes `remove_proxy`. -/
theorem runOps_of_no_impl (ops : List ProxyOp) :
    ∀ c : ClientState, c.maybeImpl = none →
      Client.runOps c ops = (c, 0) := by
  induction ops with
  | nil => intro c _; rfl
  | cons op rest ih =>
      intro c hc
      cases op <;>
        simp [Client.runOps, Client.close, Client.del, hc, ih c hc]

/-- Over any sequence of lifetime events whose non-final elements are all
explicit closes, at most one of them invokes `remove_proxy`. -/
theorem runOps_le_one (ops : List ProxyOp) :
    ∀ c : ClientState, (∀ op ∈ ops.dropLast, op = ProxyOp.close) →
      (Client.runOps c ops).2 ≤ 1 := by
  induction ops with
  | nil => intro c _; simp [Client.runOps]
  | cons op rest ih =>
      intro c hdel
      have hrest : ∀ op' ∈ rest.dropLast, op' = ProxyOp.close := by
        intro op' hop'
        apply hdel
        cases rest with
        | nil => simp at hop'
        | cons r rs => simpa [List.dropLast] using Or.inr hop'
      cases op with
      | close =>
          cases hc : c.maybeImpl with
          | none =>
              simpa [Client.runOps, Client.close, hc] using ih c hrest
          | some impl =>
              have hnone : ({ c with maybeImpl := none } : ClientState).maybeImpl = none := rfl
              simp [Client.runOps, Client.close, hc,
                    runOps_of_no_impl rest _ hnone]
      | del =>
          cases rest with
          | nil =>
              cases hc : c.maybeImpl <;> simp [Client.runOps, Client.del, hc]
          | cons r rs =>
              have : ProxyOp.del = ProxyOp.close := by
                apply hdel
                simp [List.dropLast]
              exact ProxyOp.noConfusion this

/-- C10: over any sequence of proxy lifetime events in which the
interpreter's `__del__` hook can only come last (any number of explicit
`close()` calls, then at most one drop), `ClientImpl.remove_proxy` is
invoked at most once, because the first effective `close` clears the impl
reference and both `close` and `__del__` skip the call when the reference
is already cleared; moreover `close` is idempotent — a second `close`
leaves the state unchanged and invokes nothing. -/
theorem client_remove_proxy_once (c : ClientState) (ops : List ProxyOp)
    (hdel : ∀ op ∈ ops.dropLast, op = ProxyOp.close) :
    (Client.runOps c ops).2 ≤ 1 ∧
    Client.close (Client.close c).1 = ((Client.close c).1, false) := by
  refine ⟨runOps_le_one ops c hdel, ?_⟩
  cases hc : c.maybeImpl <;> simp [Client.close, hc]

/-- Concrete instance of `client_remove_proxy_once`: two closes followed
by the drop of the sample proxy invoke `remove_proxy` exactly once. -/
theorem client_remove_proxy_once_witness :
    (Client.runOps sampleClient [ProxyOp.close, ProxyOp.close, ProxyOp.del]).2 ≤ 1 ∧
    Client.close (Client.close sampleClient).1 = ((Client.close sampleClient).1, false) :=
  client_remove_proxy_once sampleClient [ProxyOp.close, ProxyOp.close, ProxyOp.del]
    (by decide)

end PyUavcan

namespace PyUavcanUtil

/-- The loop of `mark_last` on a list ending in `x` flags everything
before `x` with `False` and `x` itself with `True`. -/
theorem markLastLoop_append {α : Type} (l : List α) :
    ∀ (last x : α),
      markLastLoop last (l ++ [x])
        = (last :: l).map (fun a => (false, a)) ++ [(true, x)] := by
  induction l with
  | nil => intro last x; rfl
  | cons v rest ih =>
      intro last x
      simp [markLastLoop, ih v x]

/-- The items the loop of `mark_last` emits are the seed followed by the
remaining input, in order. -/
theorem markLastLoop_snd {α : Type} (l : List α) :
    ∀ last : α, (markLastLoop last l).map Prod.snd = last :: l := by
  induction l with
  | nil => intro last; rfl
  | cons v rest ih =>
      intro last
      simp [markLastLoop, ih v]

/-- C9: `mark_last` yields nothing on the empty iterable; on a non-empty
input (any `l ++ [x]`) it yields `(False, item)` for every item before the
last and `(True, x)` for the last; in general it yields exactly one pair
per input item, in input order, with the input items as second
components. -/
theorem mark_last_spec {α : Type} (l : List α) (x : α) :
    mark_last ([] : List α) = [] ∧
    mark_last (l ++ [x]) = l.map (fun a => (false, a)) ++ [(true, x)] ∧
    (mark_last l).map Prod.snd = l ∧
    (mark_last l).length = l.length := by
  refine ⟨rfl, ?_, ?_, ?_⟩
  · cases l with
    | nil => rfl
    | cons a rest => simpa [mark_last] using markLastLoop_append rest a x
  · cases l with
    | nil => rfl
    | cons a rest => simpa [mark_last] using markLastLoop_snd rest a
  · cases l with
    | nil => rfl
    | cons a rest =>
        have h := markLastLoop_snd rest a
        have := congrArg List.length h
        simpa [mark_last] using this

end PyUavcanUtil
